import Mathlib

/-!
Shallow embedding of the Blockchain repository (two source variants:
`src/blockchain.js`, required by `src/main.js`, and the unnamed variant
`unnamed/part_000`).  The cryptographic digest and the elliptic-curve
key operations are external capabilities; they are passed in as explicit
parameters (`HashFn`, `CryptoPrims`), exactly as wide as the calls the
source makes into them.  Wall-clock reads (`Date.now()`) are passed in
as explicit `now : Nat` arguments.  JavaScript exceptions are modelled
by `Except Err`.
-/

/-- A JavaScript field value that may be `undefined` (never assigned),
`null`, or a proper value.  `blockchain.js` never assigns `signature`
in the `Transaction` constructor (so it is `undefined` there), while
`part_000` assigns `null`; the two are distinguished by `===`. -/
inductive JsVal (α : Type) where
  | undef
  | null
  | val (a : α)
deriving DecidableEq, Repr

/-- Exceptions thrown by the embedded code.  The spec's taxonomy calls the
signing failure `AuthorizationError`; the source throws a plain `Error`
with the quoted message.  `typeError` models the `TypeError` raised inside
the elliptic library when it is handed a non-DER signature value. -/
inductive Err where
  | authorizationError (msg : String)
  | typeError (msg : String)
deriving DecidableEq, Repr

/-- The SHA-256 capability: `crypto.createHash('sha256').update(s).digest('hex')`
is a deterministic function from the input string to a hex string. -/
def HashFn : Type := String → String

/-- The elliptic-curve capability used by the source:
`pubOf k` is `privateKey.getPublic('hex')`;
`derSign k h` is `ec.sign(h, k).toDER('hex')`;
`verify sender h sig` is `ec.keyFromPublic(sender,'hex').verify(h, sig)`
for a string signature `sig` (the `undefined`/`null` signature cases never
reach this capability: they are handled in `isValid` itself). -/
structure CryptoPrims where
  pubOf : String → String
  derSign : String → String → String
  verify : Option String → String → String → Bool

/-- Transaction record.  `sender` is `null` (`none`) for system reward
transactions.  Both variants share this shape; they differ in what the
constructor puts into `signature`. -/
structure Transaction where
  sender : Option String
  recipient : String
  amount : Int
  timestamp : Nat
  signature : JsVal String
deriving DecidableEq, Repr

/-- String a JavaScript value is coerced to by `+` concatenation. -/
def jsStr : JsVal String → String
  | .undef => "undefined"
  | .null => "null"
  | .val s => s

/-- `sender` rendered by JavaScript string concatenation (`null + str`). -/
def senderStr : Option String → String
  | none => "null"
  | some s => s

/-- `Transaction.calculateHash()`: SHA-256 of
`this.sender + this.recipient + this.amount + this.timestamp`
(identical text in both variants). -/
def Transaction.calculateHash (H : HashFn) (t : Transaction) : String :=
  H (senderStr t.sender ++ t.recipient ++ toString t.amount ++ toString t.timestamp)

namespace BC

/-- Constructor of `Transaction` in `blockchain.js`: sets sender, recipient,
amount and timestamp (`Date.now()`, passed here as `now`).  The `signature`
field is never assigned, so it is `undefined`. -/
def Transaction.make (sender : Option String) (recipient : String)
    (amount : Int) (now : Nat) : Transaction :=
  { sender, recipient, amount, timestamp := now, signature := .undef }

/-- `Transaction.signTransaction(privateKey)` in `blockchain.js`: throws
when `privateKey.getPublic('hex') !== this.sender`; otherwise stores
`ec.sign(this.calculateHash(), privateKey).toDER('hex')` in `signature`.
On a throw no field is assigned, so the transaction stays unsigned. -/
def Transaction.signTransaction (H : HashFn) (C : CryptoPrims)
    (t : Transaction) (k : String) : Except Err Transaction :=
  if t.sender ≠ some (C.pubOf k) then
    .error (.authorizationError "You cannot sign transactions for other wallets!")
  else
    .ok { t with signature := .val (C.derSign k (t.calculateHash H)) }

/-- `Transaction.isValid()` in `blockchain.js`:
`if (this.signature === null) return true;` fires only for a signature that
is literally `null`; for an `undefined` signature (never assigned by the
constructor) the guard `!this.signature` merely logs, execution falls
through to `publicKey.verify(this.calculateHash(), this.signature)`, and
elliptic's `Signature` constructor throws a `TypeError` when handed
`undefined` (its DER import rejects it and it then reads `.r` of
`undefined`).  A string signature is verified against the key derived
from `sender`. -/
def Transaction.isValid (H : HashFn) (C : CryptoPrims)
    (t : Transaction) : Except Err Bool :=
  match t.signature with
  | .null => .ok true
  | .undef => .error (.typeError "Cannot read properties of undefined (reading r)")
  | .val s => .ok (C.verify t.sender (t.calculateHash H) s)

/-- Block record of `blockchain.js`.  This variant's `Block` has no `index`
field: nothing in the file ever assigns `this.index`, so every read of it
yields `undefined`. -/
structure Block where
  previousHash : String
  transactions : List Transaction
  timestamp : Nat
  hash : String
  nonce : Nat
deriving DecidableEq, Repr

/-- `Block.calculateHash()` in `blockchain.js`: SHA-256 of
`this.index + this.previousHash + this.timestamp + this.nonce`; `this.index`
is always `undefined` in this variant, so the digest input begins with the
string "undefined". -/
def Block.calculateHash (H : HashFn) (b : Block) : String :=
  H ("undefined" ++ b.previousHash ++ toString b.timestamp ++ toString b.nonce)

/-- Constructor of `Block` in `blockchain.js`: `this.hash = this.calculateHash()`
runs before `this.nonce = 1`, so the digest of the freshly built block is
taken with `this.nonce` (and `this.index`) still `undefined`. -/
def Block.make (H : HashFn) (previousHash : String)
    (transactions : List Transaction) (timestamp : Nat) : Block :=
  { previousHash, transactions, timestamp,
    hash := H ("undefined" ++ previousHash ++ toString timestamp ++ "undefined"),
    nonce := 1 }

/-- `Array(difficulty + 1).join('1')`: the string of `difficulty` copies of
the target digit `'1'`. -/
def targetStr (difficulty : Nat) : String :=
  String.mk (List.replicate difficulty '1')

/-- One iteration of the mining loop body: `this.nonce++;
this.hash = this.calculateHash();`. -/
def Block.mineStep (H : HashFn) (b : Block) : Block :=
  let b1 := { b with nonce := b.nonce + 1 }
  { b1 with hash := b1.calculateHash H }

/-- `Block.mineBlock(difficulty)`: loop
`while (this.hash?.substring(0, difficulty) !== Array(difficulty+1).join('1'))`.
The loop is an unbounded search; it is embedded with explicit `fuel`
(number of loop iterations allowed), returning `none` when the fuel runs
out before the target is met. -/
def Block.mineBlock (H : HashFn) (fuel : Nat) (b : Block) (difficulty : Nat) :
    Option Block :=
  if b.hash.take difficulty = targetStr difficulty then some b
  else
    match fuel with
    | 0 => none
    | fuel' + 1 => Block.mineBlock H fuel' (b.mineStep H) difficulty

/-- Loop of `Block.hasValidTransactions()`: walks the transactions,
short-circuiting on the first invalid one and propagating the exception
when `isValid()` throws. -/
def validLoop (H : HashFn) (C : CryptoPrims) : List Transaction → Except Err Bool
  | [] => .ok true
  | t :: ts =>
    match Transaction.isValid H C t with
    | .error e => .error e
    | .ok false => .ok false
    | .ok true => validLoop H C ts

/-- `Block.hasValidTransactions()`: true iff every contained transaction's
`isValid()` is true. -/
def Block.hasValidTransactionsE (H : HashFn) (C : CryptoPrims)
    (b : Block) : Except Err Bool :=
  validLoop H C b.transactions

/-- Ledger record of `blockchain.js`. -/
structure Blockchain where
  chain : List Block
  difficulty : Nat
  pendingTransactions : List Transaction
  mineReward : Int
deriving DecidableEq, Repr

/-- `Blockchain.createGenesisBlock()`: `new Block('0', [], Date.now())`. -/
def createGenesisBlock (H : HashFn) (now : Nat) : Block :=
  Block.make H "0" [] now

/-- Constructor of `Blockchain`: chain seeded with the genesis block,
difficulty 4, empty pool, mining reward 100. -/
def Blockchain.make (H : HashFn) (now : Nat) : Blockchain :=
  { chain := [createGenesisBlock H now], difficulty := 4,
    pendingTransactions := [], mineReward := 100 }

/-- `Blockchain.getLatestBlock()`: `this.chain[this.chain.length - 1]`
(the chain is nonempty in every reachable state, the constructor having
seeded it with genesis). -/
def Blockchain.getLatestBlock (bc : Blockchain) : Option Block :=
  bc.chain.getLast?

/-- `Blockchain.minePendingTransactions(miningRewardAddress)`: pushes the
reward transaction (null sender) onto the pool, builds a block from the
whole pool with `previousHash = getLatestBlock().hash` and the current
time, mines it at the ledger's difficulty, appends it to the chain and
clears the pool.  `fuel` bounds the mining loop; `none` means the fuel
ran out. -/
def Blockchain.minePendingTransactions (H : HashFn) (fuel : Nat) (now : Nat)
    (bc : Blockchain) (miningRewardAddress : String) : Option Blockchain :=
  match bc.chain.getLast? with
  | none => none
  | some latest =>
    let rewardTx : Transaction :=
      { sender := none, recipient := miningRewardAddress,
        amount := bc.mineReward, timestamp := now, signature := .undef }
    let pending := bc.pendingTransactions ++ [rewardTx]
    let block := Block.make H latest.hash pending now
    match block.mineBlock H fuel bc.difficulty with
    | none => none
    | some mined =>
      some { bc with chain := bc.chain ++ [mined], pendingTransactions := [] }

/-- Body of the inner loop of `getBalanceOfAddress`: the two `if`
statements run in sequence (a self-payment is first subtracted, then
added back); the ledger component of the accumulator rides through
untouched, the loop mutating only the local `balance`. -/
def balStep (address : Option String) (a : Int × Blockchain)
    (trans : Transaction) : Int × Blockchain :=
  let a1 := if trans.sender = address then (a.1 - trans.amount, a.2) else a
  if some trans.recipient = address then (a1.1 + trans.amount, a1.2) else a1

/-- `Blockchain.getBalanceOfAddress(address)` as a method: the pair of the
computed balance and the ledger state after the call. -/
def Blockchain.getBalanceOfAddressM (bc : Blockchain) (address : Option String) :
    Int × Blockchain :=
  bc.chain.foldl
    (fun acc block => block.transactions.foldl (balStep address) acc)
    (0, bc)

/-- Result component of `getBalanceOfAddress`. -/
def Blockchain.getBalanceOfAddress (bc : Blockchain) (address : Option String) : Int :=
  (bc.getBalanceOfAddressM address).1

/-- Body of the inner loop of `getAllTransactionForWallet`: pushes the
transaction when the address is its sender or recipient. -/
def walletStep (address : Option String) (a : List Transaction × Blockchain)
    (tx : Transaction) : List Transaction × Blockchain :=
  if tx.sender = address ∨ some tx.recipient = address
  then (a.1 ++ [tx], a.2) else a

/-- `Blockchain.getAllTransactionForWallet(address)` as a method: collects,
in chain-then-in-block order, the transactions whose sender or recipient
is the address, and returns the unchanged state alongside. -/
def Blockchain.getAllTransactionForWalletM (bc : Blockchain) (address : Option String) :
    List Transaction × Blockchain :=
  bc.chain.foldl
    (fun acc block => block.transactions.foldl (walletStep address) acc)
    ([], bc)

/-- `Blockchain.addTransaction(transaction)`: three admission gates —
`isValid()` (whose exception propagates), `amount <= 0`, and
`getBalanceOfAddress(sender) < amount`; a rejected transaction leaves the
ledger untouched, an admitted one is pushed onto the pool. -/
def Blockchain.addTransaction (H : HashFn) (C : CryptoPrims)
    (bc : Blockchain) (transaction : Transaction) : Except Err Blockchain :=
  match Transaction.isValid H C transaction with
  | .error e => .error e
  | .ok false => .ok bc
  | .ok true =>
    if transaction.amount ≤ 0 then .ok bc
    else if bc.getBalanceOfAddress transaction.sender < transaction.amount then .ok bc
    else .ok { bc with pendingTransactions := bc.pendingTransactions ++ [transaction] }

/-- Inner loop of `isChainValid()` over `i = 1 .. chain.length - 1`,
carried with the previous block; the ledger state is threaded through and
returned untouched by every branch. -/
def chainLoop (H : HashFn) (C : CryptoPrims) (bc : Blockchain) :
    Block → List Block → Except Err Bool × Blockchain
  | _, [] => (.ok true, bc)
  | prev, cur :: rest =>
    match cur.hasValidTransactionsE H C with
    | .error e => (.error e, bc)
    | .ok false => (.ok false, bc)
    | .ok true =>
      if cur.hash ≠ cur.calculateHash H then (.ok false, bc)
      else if cur.previousHash ≠ prev.hash then (.ok false, bc)
      else chainLoop H C bc cur rest

/-- `Blockchain.isChainValid()` as a method: recomputes the canonical
genesis block with the current time and compares it (via
`JSON.stringify`, i.e. structurally — the stringification is injective on
these records) with `chain[0]`; then walks the chain checking
transactions, the recomputed hash, and the previous-hash link. -/
def Blockchain.isChainValidM (H : HashFn) (C : CryptoPrims) (now : Nat)
    (bc : Blockchain) : Except Err Bool × Blockchain :=
  match bc.chain with
  | [] => (.ok false, bc)
  | g :: rest =>
    if createGenesisBlock H now ≠ g then (.ok false, bc)
    else chainLoop H C bc g rest

/-- Result component of `isChainValid`. -/
def Blockchain.isChainValid (H : HashFn) (C : CryptoPrims) (now : Nat)
    (bc : Blockchain) : Except Err Bool :=
  (bc.isChainValidM H C now).1

end BC

namespace P0

/-- Constructor of `Transaction` in the `part_000` variant: identical to
`blockchain.js` except that it assigns `this.signature = null`. -/
def Transaction.make (sender : Option String) (recipient : String)
    (amount : Int) (now : Nat) : Transaction :=
  { sender, recipient, amount, timestamp := now, signature := .null }

/-- `Transaction.isValid()` in `part_000`:
`if (this.signature === null) return false;` — an unsigned transaction is
invalid regardless of its sender; a string signature is verified against
the key derived from `sender`.  (An `undefined` signature, unreachable from
this variant's constructor, would fall through to the same elliptic
`TypeError` as in `blockchain.js`.) -/
def Transaction.isValid (H : HashFn) (C : CryptoPrims)
    (t : Transaction) : Except Err Bool :=
  match t.signature with
  | .null => .ok false
  | .undef => .error (.typeError "Cannot read properties of undefined (reading r)")
  | .val s => .ok (C.verify t.sender (t.calculateHash H) s)

/-- Block record of `part_000`: the constructor takes and assigns all six
fields, so this variant does maintain an `index`.  `previousHash` and
`hash` are passed `null` by some call sites, hence `JsVal String`. -/
structure Block where
  index : Nat
  previousHash : JsVal String
  transactions : List Transaction
  timestamp : Nat
  hash : JsVal String
  nonce : Nat
deriving DecidableEq, Repr

/-- `Block.calculateHash()` in `part_000`: SHA-256 of
`this.index + this.previousHash + this.timestamp + this.nonce` (JavaScript
string concatenation, rendering a `null` previousHash as "null"). -/
def Block.calculateHash (H : HashFn) (b : Block) : String :=
  H (toString b.index ++ jsStr b.previousHash ++ toString b.timestamp ++ toString b.nonce)

/-- Inner search loop of `part_000`'s `mineBlock`, entered once `this.hash`
holds a string; each iteration does `this.nonce++; this.hash = this.calculateHash()`. -/
def Block.mineLoop (H : HashFn) (fuel : Nat) (b : Block) (difficulty : Nat)
    (h : String) : Option Block :=
  if h.take difficulty = BC.targetStr difficulty then some b
  else
    match fuel with
    | 0 => none
    | fuel' + 1 =>
      let b1 := { b with nonce := b.nonce + 1 }
      let b2 := { b1 with hash := .val (b1.calculateHash H) }
      Block.mineLoop H fuel' b2 difficulty (b1.calculateHash H)

/-- `Block.mineBlock(difficulty)` in `part_000`: the guard reads
`this.hash.substring(0, difficulty)` with no optional chaining, so when the
block was constructed with `hash = null` (as `minePendingTransactions`
does) the very first access throws a `TypeError`. -/
def Block.mineBlock (H : HashFn) (fuel : Nat) (b : Block) (difficulty : Nat) :
    Except Err (Option Block) :=
  match b.hash with
  | .val h => .ok (Block.mineLoop H fuel b difficulty h)
  | _ => .error (.typeError "Cannot read properties of null (reading substring)")

/-- Ledger record of `part_000` (same fields as `blockchain.js`, but over
this variant's `Block`). -/
structure Blockchain where
  chain : List Block
  difficulty : Nat
  pendingTransactions : List Transaction
  mineReward : Int
deriving DecidableEq, Repr

/-- `createGenesisBlock()` in `part_000`:
`new Block(0, '0', [], new Date().getTime(), '0', 0)`. -/
def createGenesisBlock (now : Nat) : Block :=
  { index := 0, previousHash := .val "0", transactions := [],
    timestamp := now, hash := .val "0", nonce := 0 }

/-- Constructor of `part_000`'s `Blockchain`. -/
def Blockchain.make (now : Nat) : Blockchain :=
  { chain := [createGenesisBlock now], difficulty := 4,
    pendingTransactions := [], mineReward := 100 }

/-- `Blockchain.minePendingTransactions(miningRewardAddress)` in `part_000`:
pushes the reward transaction, then builds
`new Block(latest.index + 1, latest.hash, pool, now, null, 0)` and mines
it — but the new block's `hash` is `null`, so `mineBlock` throws before
anything is appended.  `.ok none` marks fuel exhaustion. -/
def Blockchain.minePendingTransactions (H : HashFn) (fuel : Nat) (now : Nat)
    (bc : Blockchain) (miningRewardAddress : String) :
    Except Err (Option Blockchain) :=
  match bc.chain.getLast? with
  | none => .error (.typeError "Cannot read properties of undefined (reading index)")
  | some latest =>
    let rewardTx : Transaction :=
      { sender := none, recipient := miningRewardAddress,
        amount := bc.mineReward, timestamp := now, signature := .null }
    let pending := bc.pendingTransactions ++ [rewardTx]
    let block : Block :=
      { index := latest.index + 1, previousHash := latest.hash,
        transactions := pending, timestamp := now, hash := .null, nonce := 0 }
    match block.mineBlock H fuel bc.difficulty with
    | .error e => .error e
    | .ok none => .ok none
    | .ok (some mined) =>
      .ok (some { bc with chain := bc.chain ++ [mined], pendingTransactions := [] })

end P0

/-! ### Spec-side balance summation (for the refinement comparison of C8),
and concrete digest/crypto instantiations used by witnesses and
counterexamples. -/

/-- Stated from the spec's words, for comparison with
`getBalanceOfAddress`: the signed contribution of one transaction to an
address — `+amount` when the recipient is the address, `-amount` when the
sender is. -/
def txDelta (address : Option String) (t : Transaction) : Int :=
  (if some t.recipient = address then t.amount else 0) -
  (if t.sender = address then t.amount else 0)

/-- Stated from the spec's words, for comparison with
`getBalanceOfAddress`: the sum, over all transactions in all blocks of the
chain in chain order, of the per-transaction contributions. -/
def balanceSpec (bc : BC.Blockchain) (address : Option String) : Int :=
  (bc.chain.map fun b => (b.transactions.map (txDelta address)).sum).sum

/-- Concrete digest instantiation: constant "1". -/
def hashConst1 : HashFn := fun _ => "1"

/-- Concrete digest instantiation: constant "1111" (meets difficulty 4 at
once, so concrete mining runs terminate immediately). -/
def hashConst1111 : HashFn := fun _ => "1111"

/-- Concrete digest instantiation for the C4 counterexample: the input the
`Block` constructor hashes (with `nonce` still `undefined`) maps to "1",
every other input to "0". -/
def hashCexC4 : HashFn := fun s => if s = "undefinedp0undefined" then "1" else "0"

/-- Concrete key-capability instantiation: the public identifier of a
private key `k` is `"P" ++ k`; a signature is the public key and digest
tagged with "D"; verification recomputes it. -/
def cryptoToy : CryptoPrims where
  pubOf := fun k => "P" ++ k
  derSign := fun k h => "D" ++ ("P" ++ k) ++ h
  verify := fun pk h s =>
    match pk with
    | some p => s == "D" ++ p ++ h
    | none => false

/-! ### Concrete inputs for witnesses, counterexamples and evaluations -/

/-- Concrete block for the C4 counterexample: built by the `Block`
constructor, whose initial hash (taken with `nonce` still `undefined`)
already meets difficulty 1, so the mining loop exits without an iteration
and the stored hash differs from `calculateHash()`. -/
def blockCexC4 : BC.Block := BC.Block.make hashCexC4 "p" [] 0

/-- Concrete block entering the C4 witness run with a hash missing the
difficulty-1 target. -/
def blockW4 : BC.Block :=
  { previousHash := "", transactions := [], timestamp := 0, hash := "0", nonce := 0 }

/-- Result of the C4 witness run: one mining iteration. -/
def blockW4' : BC.Block :=
  { previousHash := "", transactions := [], timestamp := 0, hash := "1", nonce := 1 }

/-- Concrete `part_000` blocks agreeing on the four header fields but with
different transactions. -/
def blockW5a : P0.Block :=
  { index := 3, previousHash := .val "ph", transactions := [],
    timestamp := 7, hash := .val "h1", nonce := 9 }

def blockW5b : P0.Block :=
  { index := 3, previousHash := .val "ph",
    transactions := [BC.Transaction.make (some "X") "Y" 42 1],
    timestamp := 7, hash := .val "h2", nonce := 9 }

/-- Concrete `blockchain.js` blocks agreeing on the header fields but with
different transactions. -/
def blockW5c : BC.Block :=
  { previousHash := "ph", transactions := [], timestamp := 7,
    hash := "h1", nonce := 9 }

def blockW5d : BC.Block :=
  { previousHash := "ph", transactions := [BC.Transaction.make none "Y" 5 2],
    timestamp := 7, hash := "h2", nonce := 9 }

/-- Concrete ledger for the C6 witness (digest constantly "1111", so the
difficulty-4 target is met at once). -/
def bcW6 : BC.Blockchain := BC.Blockchain.make hashConst1111 0

/-- Concrete result of the C6 witness run. -/
def bcW6' : BC.Blockchain :=
  { chain :=
      [{ previousHash := "0", transactions := [], timestamp := 0,
         hash := "1111", nonce := 1 },
       { previousHash := "1111",
         transactions :=
           [{ sender := none, recipient := "A", amount := 100,
              timestamp := 5, signature := .undef }],
         timestamp := 5, hash := "1111", nonce := 1 }],
    difficulty := 4, pendingTransactions := [], mineReward := 100 }

/-- Transaction for the C7 counterexample: built by the `blockchain.js`
constructor (so its signature is `undefined`) with amount 0. -/
def txCexC7 : Transaction := BC.Transaction.make (some "S") "R" 0 0

/-- Ledger for the C7 witness: genesis plus one block holding a reward of
100 to "PA", so "PA" has balance 100. -/
def bcW7 : BC.Blockchain :=
  { chain :=
      [{ previousHash := "0", transactions := [], timestamp := 0,
         hash := "1", nonce := 1 },
       { previousHash := "1",
         transactions :=
           [{ sender := none, recipient := "PA", amount := 100,
              timestamp := 1, signature := .undef }],
         timestamp := 1, hash := "1", nonce := 1 }],
    difficulty := 4, pendingTransactions := [], mineReward := 100 }

/-- Validly signed transfer of 50 from "PA" (passes all three gates
against `bcW7`). -/
def txW7 : Transaction :=
  { sender := some "PA", recipient := "B", amount := 50, timestamp := 7,
    signature := .val "DPA1" }

/-- Validly signed transaction with amount 0 (rejected by the amount
gate without throwing). -/
def txW7r : Transaction :=
  { sender := some "PA", recipient := "B", amount := 0, timestamp := 8,
    signature := .val "DPA1" }

/-- Foreign transaction for the C2 witness: sender "X" is not the public
identifier of key "A" (which is "PA"). -/
def txW2f : Transaction := BC.Transaction.make (some "X") "B" 5 0

/-- Own transaction for the C2 witness: sender "PA" is the public
identifier of key "A". -/
def txW2o : Transaction := BC.Transaction.make (some "PA") "B" 5 0

/-- A transaction whose sender is a present public key ("PA") and whose
signature is absent (`null`). -/
def txC1present : Transaction :=
  { sender := some "PA", recipient := "B", amount := 5, timestamp := 0,
    signature := .null }

/-- A reward-shaped transaction of `blockchain.js`: absent (`null`)
sender, signature never assigned (`undefined`). -/
def txC1reward : Transaction := BC.Transaction.make none "B" 100 0

/-- A reward-shaped transaction of `part_000`: absent sender, signature
`null` as its constructor leaves it. -/
def txC1rewardP0 : Transaction := P0.Transaction.make none "B" 100 0

/-- A transaction fresh from the `blockchain.js` constructor: signature
never set. -/
def txC3fresh : Transaction := BC.Transaction.make (some "PA") "B" 5 0

/-- The transfer of the spec's concrete scenario: 100 from A (the public
identifier "PkA" of key "kA") to B, before signing. -/
def scenarioTransfer : Transaction := BC.Transaction.make (some "PkA") "B" 100 2

/-- The honest scenario, run against `blockchain.js` with the constant
"1111" digest (so difficulty-4 mining succeeds at once) and the toy key
capability: construct the ledger at t=0, mine a reward of 100 to A at
t=1, sign the 100 transfer from A to B with A's own key, admit it, and
mine again at t=3. -/
def honestScenario : Option BC.Blockchain :=
  (BC.Blockchain.minePendingTransactions hashConst1111 1 1
      (BC.Blockchain.make hashConst1111 0) "PkA").bind fun bc1 =>
  ((BC.Transaction.signTransaction hashConst1111 cryptoToy scenarioTransfer "kA").toOption).bind fun tx1 =>
  ((BC.Blockchain.addTransaction hashConst1111 cryptoToy bc1 tx1).toOption).bind fun bc2 =>
  BC.Blockchain.minePendingTransactions hashConst1111 1 3 bc2 "PkA"

/-! ### Helper lemmas -/

/-- Soundness of the mining loop: a successful run leaves the header
fields other than `hash`/`nonce` untouched, makes the hash meet the
target, and — whenever the entering hash did not already meet the target,
or the entering block already satisfied `hash = calculateHash()` — ends
with `hash = calculateHash()` on the final fields. -/
theorem BC.mineBlock_sound (H : HashFn) (d : Nat) :
    ∀ (fuel : Nat) (b b' : BC.Block),
    BC.Block.mineBlock H fuel b d = some b' →
    b'.previousHash = b.previousHash ∧ b'.transactions = b.transactions ∧
    b'.timestamp = b.timestamp ∧ b'.hash.take d = BC.targetStr d ∧
    (b.hash = b.calculateHash H → b'.hash = b'.calculateHash H) ∧
    (b.hash.take d ≠ BC.targetStr d → b'.hash = b'.calculateHash H) := by
  intro fuel
  induction fuel with
  | zero =>
    intro b b' h
    rw [BC.Block.mineBlock] at h
    by_cases hc : b.hash.take d = BC.targetStr d
    · rw [if_pos hc] at h
      cases h
      exact ⟨rfl, rfl, rfl, hc, fun hh => hh, fun hne => absurd hc hne⟩
    · rw [if_neg hc] at h
      exact absurd h (by simp)
  | succ n ih =>
    intro b b' h
    rw [BC.Block.mineBlock] at h
    by_cases hc : b.hash.take d = BC.targetStr d
    · rw [if_pos hc] at h
      cases h
      exact ⟨rfl, rfl, rfl, hc, fun hh => hh, fun hne => absurd hc hne⟩
    · rw [if_neg hc] at h
      obtain ⟨h1, h2, h3, h4, h5, _⟩ := ih (b.mineStep H) b' h
      have hstep : (BC.Block.mineStep H b).hash =
          (BC.Block.mineStep H b).calculateHash H := rfl
      exact ⟨h1, h2, h3, h4, fun _ => h5 hstep, fun _ => h5 hstep⟩

/-! ### C4 — mining target -/

/-- C4 counterexample: at difficulty 1 (≥ 1), `mineBlock` terminates on
`blockCexC4` with a hash meeting the target but different from
`calculateHash()` on the final fields — the claim's second conjunct fails
when the loop performs zero iterations, which the constructor makes
possible because it digests the header before `nonce` is assigned. -/
theorem mineBlock_zero_iterations_cex :
    1 ≥ 1 ∧
    BC.Block.mineBlock hashCexC4 1 blockCexC4 1 = some blockCexC4 ∧
    blockCexC4.hash.take 1 = BC.targetStr 1 ∧
    blockCexC4.hash ≠ blockCexC4.calculateHash hashCexC4 :=
  ⟨by decide, by decide, by decide, by decide⟩

/-- C4 (amended): for every block `b` and difficulty `d ≥ 1`, when
`mineBlock(d)` terminates the first `d` characters of the final hash all
equal the target digit `'1'`; and the final hash equals `calculateHash()`
on the final fields provided the entering hash did not already satisfy
the target (i.e. the loop ran at least one iteration). -/
theorem mineBlock_meets_target (H : HashFn) (fuel : Nat) (b : BC.Block)
    (d : Nat) (b' : BC.Block) (_hd : 1 ≤ d)
    (h : BC.Block.mineBlock H fuel b d = some b') :
    b'.hash.take d = BC.targetStr d ∧
    (b.hash.take d ≠ BC.targetStr d → b'.hash = b'.calculateHash H) := by
  obtain ⟨-, -, -, h4, -, h6⟩ := BC.mineBlock_sound H d fuel b b' h
  exact ⟨h4, h6⟩

theorem mineBlock_meets_target_witness :
    blockW4'.hash.take 1 = BC.targetStr 1 ∧
    (blockW4.hash.take 1 ≠ BC.targetStr 1 →
      blockW4'.hash = blockW4'.calculateHash hashConst1) :=
  mineBlock_meets_target hashConst1 1 blockW4 1 blockW4' (by decide) (by decide)

/-! ### C5 — block hash ignores transaction content -/

/-- C5: `Block.calculateHash()` depends only on (index, previousHash,
timestamp, nonce): two blocks agreeing on those fields, however their
transactions differ, hash identically.  Stated for the `part_000` variant,
whose blocks carry all four fields, and alongside for the `blockchain.js`
variant, whose blocks carry no `index` at all (reads of `this.index` give
`undefined`), so agreement on the remaining three fields suffices there. -/
theorem blockHash_ignores_transactions (H : HashFn) (b1 b2 : P0.Block)
    (c1 c2 : BC.Block)
    (hi : b1.index = b2.index) (hp : b1.previousHash = b2.previousHash)
    (ht : b1.timestamp = b2.timestamp) (hn : b1.nonce = b2.nonce)
    (hp' : c1.previousHash = c2.previousHash) (ht' : c1.timestamp = c2.timestamp)
    (hn' : c1.nonce = c2.nonce) :
    b1.calculateHash H = b2.calculateHash H ∧
    c1.calculateHash H = c2.calculateHash H := by
  unfold P0.Block.calculateHash BC.Block.calculateHash
  rw [hi, hp, ht, hn, hp', ht', hn']
  exact ⟨rfl, rfl⟩

theorem blockHash_ignores_transactions_witness :
    blockW5a.calculateHash hashConst1 = blockW5b.calculateHash hashConst1 ∧
    blockW5c.calculateHash hashConst1 = blockW5d.calculateHash hashConst1 :=
  blockHash_ignores_transactions hashConst1 blockW5a blockW5b blockW5c blockW5d
    rfl rfl rfl rfl rfl rfl rfl

/-! ### C6 — minePendingTransactions -/

/-- C6 counterexample: in the `part_000` variant — the only variant whose
blocks carry the `index` field the claim speaks about — mining the pending
pool of a freshly constructed ledger throws a `TypeError` instead of
appending a mined block, because the new block is built with `hash = null`
and `mineBlock` immediately calls `substring` on it. -/
theorem minePending_null_hash_cex :
    P0.Blockchain.minePendingTransactions hashConst1 9 1 (P0.Blockchain.make 0) "A"
      = .error (.typeError "Cannot read properties of null (reading substring)") :=
  rfl

/-- C6 (amended): in `blockchain.js` — whose blocks maintain no index —
whenever `minePendingTransactions(addr)` completes, it has appended
exactly one block to the chain, built from the entire prior pool plus a
freshly appended reward transaction (null sender, recipient `addr`,
amount `mineReward`), with `previousHash` equal to the prior latest
block's hash, mined to the ledger's difficulty, and it has emptied the
pool (difficulty and reward unchanged). -/
theorem minePendingTransactions_spec (H : HashFn) (fuel now : Nat)
    (bc : BC.Blockchain) (addr : String) (bc' : BC.Blockchain)
    (h : bc.minePendingTransactions H fuel now addr = some bc') :
    ∃ latest mined,
      bc.chain.getLast? = some latest ∧
      bc'.chain = bc.chain ++ [mined] ∧
      mined.previousHash = latest.hash ∧
      mined.transactions = bc.pendingTransactions ++
        [{ sender := none, recipient := addr, amount := bc.mineReward,
           timestamp := now, signature := .undef }] ∧
      mined.timestamp = now ∧
      mined.hash.take bc.difficulty = BC.targetStr bc.difficulty ∧
      bc'.pendingTransactions = [] ∧
      bc'.difficulty = bc.difficulty ∧
      bc'.mineReward = bc.mineReward := by
  unfold BC.Blockchain.minePendingTransactions at h
  cases hl : bc.chain.getLast? with
  | none => rw [hl] at h; exact absurd h (by simp)
  | some latest =>
    rw [hl] at h
    dsimp only at h
    cases hm : BC.Block.mineBlock H fuel
        (BC.Block.make H latest.hash
          (bc.pendingTransactions ++
            [{ sender := none, recipient := addr, amount := bc.mineReward,
               timestamp := now, signature := .undef }]) now) bc.difficulty with
    | none => rw [hm] at h; exact absurd h (by simp)
    | some mined =>
      rw [hm] at h
      cases h
      obtain ⟨h1, h2, h3, h4, -, -⟩ := BC.mineBlock_sound H bc.difficulty fuel _ mined hm
      exact ⟨latest, mined, rfl, rfl, h1, h2, h3, h4, rfl, rfl, rfl⟩

theorem minePendingTransactions_spec_witness :
    ∃ latest mined,
      bcW6.chain.getLast? = some latest ∧
      bcW6'.chain = bcW6.chain ++ [mined] ∧
      mined.previousHash = latest.hash ∧
      mined.transactions = bcW6.pendingTransactions ++
        [{ sender := none, recipient := "A", amount := bcW6.mineReward,
           timestamp := 5, signature := .undef }] ∧
      mined.timestamp = 5 ∧
      mined.hash.take bcW6.difficulty = BC.targetStr bcW6.difficulty ∧
      bcW6'.pendingTransactions = [] ∧
      bcW6'.difficulty = bcW6.difficulty ∧
      bcW6'.mineReward = bcW6.mineReward :=
  minePendingTransactions_spec hashConst1111 0 5 bcW6 "A" bcW6' (by decide)

/-! ### C8 — balance accounting -/

/-- The inner balance loop adds the per-transaction deltas to the running
balance and never touches the threaded ledger state. -/
theorem BC.balStep_fold (address : Option String) :
    ∀ (txs : List Transaction) (a : Int × BC.Blockchain),
    txs.foldl (BC.balStep address) a =
      (a.1 + (txs.map (txDelta address)).sum, a.2) := by
  intro txs
  induction txs with
  | nil => intro a; simp
  | cons t ts ih =>
    intro a
    rw [List.foldl_cons, ih]
    simp only [List.map_cons, List.sum_cons]
    unfold BC.balStep txDelta
    by_cases hs : t.sender = address <;> by_cases hr : some t.recipient = address <;>
      simp [hs, hr, Prod.mk.injEq] <;> omega

/-- The outer balance loop sums the per-block sums. -/
theorem BC.balChain_fold (address : Option String) :
    ∀ (blocks : List BC.Block) (a : Int × BC.Blockchain),
    blocks.foldl (fun acc block => block.transactions.foldl (BC.balStep address) acc) a =
      (a.1 + (blocks.map fun b => (b.transactions.map (txDelta address)).sum).sum, a.2) := by
  intro blocks
  induction blocks with
  | nil => intro a; simp
  | cons b bs ih =>
    intro a
    rw [List.foldl_cons, BC.balStep_fold, ih]
    simp [add_assoc]

/-- C8: `getBalanceOfAddress` computes exactly the chain-ordered signed
sum the spec describes — `+amount` for each transaction received by the
address, `-amount` for each sent by it — and in particular, on a chain of
just the genesis block and one mined block holding a single reward of `R`
to `A`, the balance of `A` is `R`. -/
theorem getBalanceOfAddress_spec :
    (∀ (bc : BC.Blockchain) (address : Option String),
      bc.getBalanceOfAddress address = balanceSpec bc address) ∧
    (∀ (H : HashFn) (R : Int) (A : String) (t0 t1 : Nat) (ts : Nat)
       (ph hh : String) (n d : Nat) (p : List Transaction) (m : Int),
      BC.Blockchain.getBalanceOfAddress
        { chain :=
            [BC.createGenesisBlock H t0,
             { previousHash := ph,
               transactions :=
                 [{ sender := none, recipient := A, amount := R,
                    timestamp := ts, signature := .undef }],
               timestamp := t1, hash := hh, nonce := n }],
          difficulty := d, pendingTransactions := p, mineReward := m }
        (some A) = R) := by
  constructor
  · intro bc address
    unfold BC.Blockchain.getBalanceOfAddress BC.Blockchain.getBalanceOfAddressM balanceSpec
    rw [BC.balChain_fold]
    simp
  · intro H R A t0 t1 ts ph hh n d p m
    unfold BC.Blockchain.getBalanceOfAddress BC.Blockchain.getBalanceOfAddressM
    rw [BC.balChain_fold]
    simp [BC.createGenesisBlock, BC.Block.make, txDelta]

/-! ### C10 — observers are read-only -/

/-- The wallet-collection loop never touches the threaded ledger state. -/
theorem BC.walletStep_fold_snd (address : Option String) :
    ∀ (txs : List Transaction) (a : List Transaction × BC.Blockchain),
    (txs.foldl (BC.walletStep address) a).2 = a.2 := by
  intro txs
  induction txs with
  | nil => intro a; rfl
  | cons t ts ih =>
    intro a
    rw [List.foldl_cons]
    rw [ih]
    unfold BC.walletStep
    by_cases hc : t.sender = address ∨ some t.recipient = address
    · rw [if_pos hc]
    · rw [if_neg hc]

/-- The outer wallet loop never touches the threaded ledger state. -/
theorem BC.walletChain_fold_snd (address : Option String) :
    ∀ (blocks : List BC.Block) (a : List Transaction × BC.Blockchain),
    (blocks.foldl (fun acc block => block.transactions.foldl (BC.walletStep address) acc) a).2 = a.2 := by
  intro blocks
  induction blocks with
  | nil => intro a; rfl
  | cons b bs ih =>
    intro a
    rw [List.foldl_cons, ih, BC.walletStep_fold_snd]

/-- Every exit of the chain-validation loop returns the ledger it was
given. -/
theorem BC.chainLoop_snd (H : HashFn) (C : CryptoPrims) (bc : BC.Blockchain) :
    ∀ (rest : List BC.Block) (prev : BC.Block),
    (BC.chainLoop H C bc prev rest).2 = bc := by
  intro rest
  induction rest with
  | nil => intro prev; rfl
  | cons cur tail ih =>
    intro prev
    unfold BC.chainLoop
    cases BC.Block.hasValidTransactionsE H C cur with
    | error e => rfl
    | ok v =>
      cases v with
      | false => rfl
      | true =>
        by_cases h1 : cur.hash ≠ cur.calculateHash H
        · rw [if_pos h1]
        · rw [if_neg h1]
          by_cases h2 : cur.previousHash ≠ prev.hash
          · rw [if_pos h2]
          · rw [if_neg h2]; exact ih cur

/-- C10: the three observers — `getBalanceOfAddress`,
`getAllTransactionForWallet` and `isChainValid` — return the ledger state
exactly as they received it: chain, every block and transaction in it,
and the pending pool are unchanged. -/
theorem observers_read_only (H : HashFn) (C : CryptoPrims) (now : Nat)
    (bc : BC.Blockchain) (address : Option String) :
    (bc.getBalanceOfAddressM address).2 = bc ∧
    (bc.getAllTransactionForWalletM address).2 = bc ∧
    (bc.isChainValidM H C now).2 = bc := by
  refine ⟨?_, ?_, ?_⟩
  · unfold BC.Blockchain.getBalanceOfAddressM
    rw [BC.balChain_fold]
  · unfold BC.Blockchain.getAllTransactionForWalletM
    rw [BC.walletChain_fold_snd]
  · unfold BC.Blockchain.isChainValidM
    cases bc.chain with
    | nil => rfl
    | cons g rest =>
      dsimp only
      by_cases hg : BC.createGenesisBlock H now ≠ g
      · rw [if_pos hg]
      · rw [if_neg hg]; exact BC.chainLoop_snd H C bc rest g

/-! ### C7 — admission gating -/

/-- C7 counterexample: `txCexC7.amount ≤ 0`, so the claim requires
`addTransaction` to throw nothing and leave the pool unchanged; instead
the call throws, because the first gate `transaction.isValid()` throws on
the `undefined` signature before the amount gate is reached. -/
theorem addTransaction_throws_cex :
    txCexC7.amount ≤ 0 ∧
    BC.Blockchain.addTransaction hashConst1 cryptoToy
        (BC.Blockchain.make hashConst1 0) txCexC7
      = .error (.typeError "Cannot read properties of undefined (reading r)") :=
  ⟨by decide, rfl⟩

/-- C7 (amended): provided `transaction.isValid()` returns a boolean
(rather than throwing): when it returns `false`, or the amount is
non-positive, or the sender's computed balance is below the amount,
`addTransaction` returns normally with the ledger — chain and pool —
unchanged; when all three gates pass, it returns the ledger with the
transaction appended as the last element of the pool.  (When `isValid()`
throws, `addTransaction` propagates that exception, also leaving the
ledger unchanged.) -/
theorem addTransaction_spec (H : HashFn) (C : CryptoPrims)
    (bc : BC.Blockchain) (tx : Transaction) (b : Bool)
    (hv : BC.Transaction.isValid H C tx = .ok b) :
    ((b = false ∨ tx.amount ≤ 0 ∨ bc.getBalanceOfAddress tx.sender < tx.amount) →
      bc.addTransaction H C tx = .ok bc) ∧
    (b = true → 0 < tx.amount → tx.amount ≤ bc.getBalanceOfAddress tx.sender →
      bc.addTransaction H C tx =
        .ok { bc with pendingTransactions := bc.pendingTransactions ++ [tx] }) := by
  unfold BC.Blockchain.addTransaction
  rw [hv]
  cases b with
  | false =>
    exact ⟨fun _ => rfl, fun hb => by cases hb⟩
  | true =>
    constructor
    · intro hrej
      rcases hrej with hb | ha | hbal
      · cases hb
      · dsimp only
        rw [if_pos ha]
      · dsimp only
        by_cases ha : tx.amount ≤ 0
        · rw [if_pos ha]
        · rw [if_neg ha, if_pos hbal]
    · intro _ ha hbal
      dsimp only
      rw [if_neg (by omega), if_neg (by omega)]

theorem addTransaction_spec_witness :
    BC.Blockchain.addTransaction hashConst1 cryptoToy bcW7 txW7r = .ok bcW7 ∧
    BC.Blockchain.addTransaction hashConst1 cryptoToy bcW7 txW7 =
      .ok { bcW7 with pendingTransactions := bcW7.pendingTransactions ++ [txW7] } :=
  ⟨(addTransaction_spec hashConst1 cryptoToy bcW7 txW7r true rfl).1
      (Or.inr (Or.inl (by decide))),
   (addTransaction_spec hashConst1 cryptoToy bcW7 txW7 true rfl).2
      rfl (by decide) (by decide)⟩

/-! ### C2 — signing authorization -/

/-- C2: `signTransaction(privateKey)` throws (the spec's
`AuthorizationError`) whenever the key's public identifier differs from
`sender` — leaving the transaction unsigned, no field having been
assigned — and otherwise succeeds, storing the DER-encoded signature over
`calculateHash()` produced with the private key. -/
theorem signTransaction_spec (H : HashFn) (C : CryptoPrims)
    (t : Transaction) (k : String) :
    (t.sender ≠ some (C.pubOf k) →
      BC.Transaction.signTransaction H C t k =
        .error (.authorizationError "You cannot sign transactions for other wallets!")) ∧
    (t.sender = some (C.pubOf k) →
      BC.Transaction.signTransaction H C t k =
        .ok { t with signature := .val (C.derSign k (t.calculateHash H)) }) := by
  unfold BC.Transaction.signTransaction
  constructor
  · intro h
    rw [if_pos h]
  · intro h
    rw [if_neg (by simp [h])]

theorem signTransaction_spec_witness :
    BC.Transaction.signTransaction hashConst1 cryptoToy txW2f "A" =
      .error (.authorizationError "You cannot sign transactions for other wallets!") ∧
    BC.Transaction.signTransaction hashConst1 cryptoToy txW2o "A" =
      .ok { txW2o with signature := .val (cryptoToy.derSign "A" (txW2o.calculateHash hashConst1)) } :=
  ⟨(signTransaction_spec hashConst1 cryptoToy txW2f "A").1 (by decide),
   (signTransaction_spec hashConst1 cryptoToy txW2o "A").2 (by decide)⟩

/-! ### C1 — sentinel trust -/

/-- C1 divergence: `blockchain.js` tests `signature === null` where the
claim's rule keys on the sender.  A present-sender transaction with a
`null` signature is accepted (claim: must be invalid); an absent-sender
transaction whose signature was never assigned makes `isValid()` throw
(claim: must be valid); and in `part_000` an absent-sender unsigned
transaction is rejected (claim: must be valid). -/
theorem isValid_sentinel_divergence :
    BC.Transaction.isValid hashConst1 cryptoToy txC1present = .ok true ∧
    BC.Transaction.isValid hashConst1 cryptoToy txC1reward =
      .error (.typeError "Cannot read properties of undefined (reading r)") ∧
    P0.Transaction.isValid hashConst1 cryptoToy txC1rewardP0 = .ok false :=
  ⟨rfl, rfl, rfl⟩

/-! ### C3 — totality of isValid on a missing signature -/

/-- C3 divergence: on a `blockchain.js` transaction whose signature was
never set, `isValid()` does not return a boolean — it throws, the
empty-signature guard only logging before execution falls through to the
signature parse. -/
theorem isValid_missing_signature_throws :
    txC3fresh.signature = JsVal.undef ∧
    BC.Transaction.isValid hashConst1 cryptoToy txC3fresh =
      .error (.typeError "Cannot read properties of undefined (reading r)") :=
  ⟨rfl, rfl⟩

/-! ### C9 — honest end-to-end scenario -/

/-- C9 divergence: the honest scenario completes, B's balance is 100 as
the claim states, but `isChainValid()` (invoked at t=9) returns `false`,
not `true`: the recomputed canonical genesis block carries the
validation-time timestamp and so never structurally equals `chain[0]`.
(Had the timestamps coincided, the walk would instead throw on the
unsigned reward transaction in block 1.) -/
theorem honest_scenario_chain_invalid :
    honestScenario.map (fun bc =>
      (bc.getBalanceOfAddress (some "B"),
       bc.isChainValid hashConst1111 cryptoToy 9))
    = some (100, .ok false) := rfl
